import Mathlib

/-!
Verification development for the OSDI setup layer of the ngspice circuit
simulator (`src/osdi/osdisetup.c`).

The C code is shallowly embedded: the per-instance byte blob accessed through
descriptor offsets (`node_mapping`, `collapsed`, `state_idx`,
`jacobian_ptr_resist`) is represented by explicit Lean lists, `uint32` values
by `Nat` (with the `UINT32_MAX` sentinel written out explicitly; the only
place where `uint32` overflow is reachable, the `num_nodes -= 1` decrement in
`collapse_nodes`, is modelled with an explicit wrap), and the external
collaborators (`SMPmakeElt`, `CKTmkVolt`/`CKTmkCur`, the KLU binding table)
by oracle parameters.  Fallible code returns `Option`/`Except`.
-/

namespace OsdiSpec

/-- `UINT32_MAX`, used by the C code as the ground / "not present" sentinel
in `node_mapping`, `collapsible[i].node_2`, `react_ptr_off` and
`react_residual_off`. -/
def UINT32_MAX : Nat := 4294967295

/-- `OK` status code from ngspice's `iferrmsg.h`.  The C code only relies on
`OK` being `0` (it tests `if (res)`); the exact numeric values of the error
codes below are defined in a header outside the sources modelled here and
only their distinctness and non-zeroness matter. -/
def OK : Nat := 0

/-- `E_PANIC` error status (fatal, model signalled unrecoverable failure). -/
def E_PANIC : Nat := 1

/-- `E_PRIVATE` error status (structured validation errors occurred). -/
def E_PRIVATE : Nat := 2

/-- `E_NOMEM` error status (matrix coefficient allocation failed). -/
def E_NOMEM : Nat := 3

/-- `INIT_ERR_OUT_OF_BOUNDS` error code from the OSDI ABI header (the header
is outside the modelled sources; the `switch` in `handle_init_info` only
compares against it, so the exact value is immaterial). -/
def INIT_ERR_OUT_OF_BOUNDS : Nat := 1

/-- One structured error of an `OsdiInitInfo` (`code` + payload, the payload
of an out-of-bounds error being a parameter id). -/
structure InitError where
  code : Nat
  parameter_id : Nat
deriving DecidableEq

/-- `OsdiInitInfo`: result of an OSDI ABI call (`setup_model` /
`setup_instance`).  The C `flags` word is tested only through the mask
`EVAL_RET_FLAG_FATAL | EVAL_RET_FLAG_FINISH`; the two relevant bits are
modelled as two booleans, so the C test `flags & (FATAL | FINISH)` becomes
`flag_fatal || flag_finish`. -/
structure InitInfo where
  flag_fatal : Bool
  flag_finish : Bool
  errors : List InitError
deriving DecidableEq

/-- One diagnostic line printed by `handle_init_info`'s error loop: either
the "Parameter %s is out of bounds!" message (identified by the parameter id
used to look the name up in `descr->param_opvar`) or the
"Unknown OSDO init error code %d!" message. -/
inductive Report where
  | outOfBounds (parameterId : Nat)
  | unknownCode (code : Nat)
deriving DecidableEq

/-- Observable outcome of `handle_init_info`: returned status, diagnostics
printed by the per-error loop, whether `free(info.errors)` ran, and the
count carried by the `errMsg = tprintf("%i errors occurred ...")` message
(`none` when `errMsg` is not assigned). -/
structure HandleResult where
  status : Nat
  reports : List Report
  freedErrors : Bool
  errMsg : Option Nat
deriving DecidableEq

/-- The `switch (err->code)` body of `handle_init_info`, producing one
diagnostic per structured error. -/
def reportError (e : InitError) : Report :=
  if e.code = INIT_ERR_OUT_OF_BOUNDS then .outOfBounds e.parameter_id
  else .unknownCode e.code

/-- `handle_init_info` from `osdisetup.c`: fatal/finish flags short-circuit
to `E_PANIC`; an empty error list yields `OK`; otherwise every error is
reported, the error list is freed, `errMsg` records the error count and
`E_PRIVATE` is returned. -/
def handle_init_info (info : InitInfo) : HandleResult :=
  if info.flag_fatal || info.flag_finish then
    ⟨E_PANIC, [], false, none⟩
  else if info.errors.length = 0 then
    ⟨OK, [], false, none⟩
  else
    ⟨E_PRIVATE, info.errors.map reportError, true, some info.errors.length⟩

/-- One entry of `descr->collapsible`: collapse `node_1` into `node_2`,
where `node_2 = UINT32_MAX` means "collapse to ground". -/
structure CollapsiblePair where
  node_1 : Nat
  node_2 : Nat
deriving DecidableEq

/-- One entry of `descr->jacobian_entries`: the (equation, unknown) local
node pair plus the instance offset of the reactive pointer
(`UINT32_MAX` = entry has no reactive/AC component). -/
structure JacobianEntry where
  node_1 : Nat
  node_2 : Nat
  react_ptr_off : Nat
deriving DecidableEq

/-- One entry of `descr->nodes`: whether the node is flow- (current-)
typed, and the offset of its reactive-residual slot
(`UINT32_MAX` = not requested). -/
structure OsdiNode where
  is_flow : Bool
  react_residual_off : Nat
deriving DecidableEq

/-- The parts of `OsdiDescriptor` read by `osdisetup.c`.  The byte offsets
(`node_mapping_offset`, `collapsed_offset`, `state_idx_off`,
`jacobian_ptr_resist_offset`) disappear in the embedding because the
sub-arrays they locate are modelled as explicit lists. -/
structure OsdiDescriptor where
  num_nodes : Nat
  num_terminals : Nat
  collapsible : List CollapsiblePair
  jacobian_entries : List JacobianEntry
  nodes : List OsdiNode
  num_states : Nat
deriving DecidableEq

/-- The inner `for (j …)` loop body of `collapse_nodes`, applied to every
entry of `node_mapping` once a collapse with resolved source representative
`fr` and target representative `tr` executes: entries equal to `fr` are
remapped to `tr`, entries greater than `fr` (and not the ground sentinel)
are decremented (index compaction), everything else is untouched. -/
def mergeMap (fr tr v : Nat) : Nat :=
  if v = fr then tr
  else if fr < v ∧ v ≠ UINT32_MAX then v - 1
  else v

/-- The terminal-protection test of `collapse_nodes` (a collapse is silently
skipped when it would merge two simulator-owned terminals, or a terminal
with ground).  Mirrors
`node_mapping[from] < connected_terminals && (to == UINT32_MAX ||
 node_mapping[to] < connected_terminals || node_mapping[to] == UINT32_MAX)`. -/
def collapseGuard (ct : Nat) (mapping : List Nat) (p : CollapsiblePair) : Bool :=
  decide (mapping.getD p.node_1 0 < ct) &&
    (decide (p.node_2 = UINT32_MAX) || decide (mapping.getD p.node_2 0 < ct) ||
      decide (mapping.getD p.node_2 0 = UINT32_MAX))

/-- The swap in `collapse_nodes` that orients a pair so that the node whose
current representative is smaller becomes the target:
`if (to != UINT32_MAX && node_mapping[from] < node_mapping[to]) swap`. -/
def collapseOrient (mapping : List Nat) (p : CollapsiblePair) : Nat × Nat :=
  if p.node_2 ≠ UINT32_MAX ∧ mapping.getD p.node_1 0 < mapping.getD p.node_2 0 then
    (p.node_2, p.node_1)
  else
    (p.node_1, p.node_2)

/-- One iteration of the `for (i < num_collapsible)` loop of
`collapse_nodes`, acting on the state (current node count, node mapping).
Skips non-executed hints and guard-protected pairs; otherwise orients the
pair, resolves both sides through the current mapping and applies
`mergeMap`.  The `num_nodes -= 1` decrement is on a `uint32_t`, hence the
explicit wrap at 0. -/
def collapsePair (ct : Nat) (st : Nat × List Nat) (p : CollapsiblePair) (flag : Bool) :
    Nat × List Nat :=
  if !flag then st
  else if collapseGuard ct st.2 p then st
  else
    let f := (collapseOrient st.2 p).1
    let t := (collapseOrient st.2 p).2
    let fr := st.2.getD f 0
    let tr := if t = UINT32_MAX then UINT32_MAX else st.2.getD t 0
    (if st.1 = 0 then UINT32_MAX else st.1 - 1, st.2.map (mergeMap fr tr))

/-- The collapse loop of `collapse_nodes`, folded over the
(collapsible pair, executed flag) list. -/
def collapseLoop (ct : Nat) (st : Nat × List Nat) :
    List (CollapsiblePair × Bool) → Nat × List Nat
  | [] => st
  | pc :: pcs => collapseLoop ct (collapsePair ct st pc.1 pc.2) pcs

/-- `collapse_nodes` from `osdisetup.c`: initialise `node_mapping` to the
identity `{0, 1, …, n-1}`, then run every executed collapse hint; returns
the remaining node count and the final local node mapping. -/
def collapse_nodes (descr : OsdiDescriptor) (collapsed : List Bool) (ct : Nat) :
    Nat × List Nat :=
  collapseLoop ct (descr.num_nodes, List.range descr.num_nodes)
    (descr.collapsible.zip collapsed)

/-- Whether the `i`-th collapse hint actually executes (flag set and not
silently skipped by the terminal-protection guard) at mapping state
`mapping`. -/
def stepExecutes (ct : Nat) (mapping : List Nat) (pc : CollapsiblePair × Bool) : Bool :=
  pc.2 && !(collapseGuard ct mapping pc.1)

/-- Static validity of a collapsible pair against the node count: `node_1`
is a real node index, `node_2` is a real node index or the ground
sentinel.  (In C this is a well-formedness obligation on the loaded
descriptor; indexing `node_mapping` outside it is undefined behaviour.) -/
def pairValid (n0 : Nat) (p : CollapsiblePair) : Bool :=
  decide (p.node_1 < n0) && (decide (p.node_2 < n0) || decide (p.node_2 = UINT32_MAX))

/-- Dynamic well-formedness of one collapse step: whenever the hint
executes, the (oriented) source side must not already be mapped to ground,
and for a non-ground target the two sides must currently have distinct,
non-ground representatives.  This is the "merge into/through ground
inconsistently" condition; `collapse_nodes` does not re-check it. -/
def stepWF (ct : Nat) (mapping : List Nat) (pc : CollapsiblePair × Bool) : Bool :=
  !(stepExecutes ct mapping pc) ||
    (decide (mapping.getD (collapseOrient mapping pc.1).1 0 ≠ UINT32_MAX) &&
      (decide ((collapseOrient mapping pc.1).2 = UINT32_MAX) ||
        (decide (mapping.getD (collapseOrient mapping pc.1).2 0 ≠ UINT32_MAX) &&
          decide (mapping.getD (collapseOrient mapping pc.1).1 0 ≠
            mapping.getD (collapseOrient mapping pc.1).2 0))))

/-- Well-formedness of a whole collapse trace: every step is statically
valid and dynamically well-formed at the state it is processed in. -/
def traceWF (ct n0 : Nat) : Nat × List Nat → List (CollapsiblePair × Bool) → Bool
  | _, [] => true
  | st, pc :: pcs =>
      pairValid n0 pc.1 && stepWF ct st.2 pc &&
        traceWF ct n0 (collapsePair ct st pc.1 pc.2) pcs

/-- The number of collapse hints that actually execute (flag set and not
skipped by the guard) along a collapse trace. -/
def execCount (ct : Nat) : Nat × List Nat → List (CollapsiblePair × Bool) → Nat
  | _, [] => 0
  | st, pc :: pcs =>
      (if stepExecutes ct st.2 pc then 1 else 0) +
        execCount ct (collapsePair ct st pc.1 pc.2) pcs

/-- The node-mapping invariant: every entry points at a surviving local node
(an index below the current node count) or at the ground sentinel. -/
def mappingOK (num : Nat) (mapping : List Nat) : Prop :=
  ∀ v ∈ mapping, v < num ∨ v = UINT32_MAX

/-- `write_node_mapping` from `osdisetup.c`: rewrite every entry of the
collapsed `node_mapping` into a global index — the ground sentinel becomes
global index `0`, anything else is looked up in the `node_ids` buffer. -/
def write_node_mapping (mapping nodeIds : List Nat) : List Nat :=
  mapping.map (fun v => if v = UINT32_MAX then 0 else nodeIds.getD v 0)

/-- `write_state_ids` from `osdisetup.c`: the `state_idx` sub-array receives
the contiguous ids `state_start, state_start + 1, …`
(one per declared state). -/
def write_state_ids (numStates stateStart : Nat) : List Nat :=
  (List.range numStates).map (fun i => stateStart + i)

/-- The scan in `OSDIsetup` that determines `connected_terminals`: the index
of the first terminal slot holding `-1`, or `num_terminals` when all
terminals are connected.  (`terminals` is the `int` array right behind the
`GENinstance`, of length `num_terminals`.) -/
def findUnconnected : List Int → Option Nat
  | [] => none
  | t :: ts => if t = -1 then some 0 else (findUnconnected ts).map (· + 1)

/-- `connected_terminals` as computed by `OSDIsetup`. -/
def connectedTerminals (terminals : List Int) : Nat :=
  match findUnconnected terminals with
  | some i => i
  | none => terminals.length

/-- The per-instance node-setup block of `OSDIsetup`: run `collapse_nodes`,
copy the caller-supplied terminal ids into the `node_ids` buffer
(`memcpy`), allocate one fresh global index per surviving internal node
(`CKTmkCur`/`CKTmkVolt` both draw consecutive numbers from the circuit's
node counter, modelled as `nodeCtr, nodeCtr+1, …`; allocation failure is
not modelled), then rewrite the mapping with `write_node_mapping`.
Returns (final global node mapping, freshly allocated global ids,
node counter afterwards). -/
def setupNodes (descr : OsdiDescriptor) (collapsed : List Bool) (terminals : List Int)
    (nodeCtr : Nat) : List Nat × List Nat × Nat :=
  let ct := connectedTerminals terminals
  let num := (collapse_nodes descr collapsed ct).1
  let mapping := (collapse_nodes descr collapsed ct).2
  let fresh := List.range' nodeCtr (num - ct)
  let nodeIds := (terminals.take ct).map Int.toNat ++ fresh
  (write_node_mapping mapping nodeIds, fresh, nodeCtr + (num - ct))

/-- Observable outcome of `init_matrix` on one instance: the
`jacobian_ptr_resist` table, the writes performed through the per-entry
reactive pointers (offset, stored address), and the (equation, unknown)
pairs passed to `SMPmakeElt` (one per call, in call order). -/
structure InitMatrixResult where
  resist : List Nat
  reactWrites : List (Nat × Nat)
  requests : List (Nat × Nat)
deriving DecidableEq

/-- `init_matrix` from `osdisetup.c`.  `mk` is the `SMPmakeElt`
collaborator: it returns the stable coefficient address for an
(equation, unknown) pair, or `none` for `NULL` (out of memory, mapped to
the `E_NOMEM` early return).  Every declared Jacobian entry is resolved
through the global `node_mapping` and passed to `SMPmakeElt`
unconditionally; when the entry declares a reactive component
(`react_ptr_off != UINT32_MAX`), the address one slot past the resistive
one is stored through the reactive pointer. -/
def init_matrix (mk : Nat → Nat → Option Nat) (mapping : List Nat) :
    List JacobianEntry → Option InitMatrixResult
  | [] => some ⟨[], [], []⟩
  | e :: es =>
    let equ := mapping.getD e.node_1 0
    let unk := mapping.getD e.node_2 0
    match mk equ unk with
    | none => none
    | some ptr =>
      match init_matrix mk mapping es with
      | none => none
      | some r =>
        some ⟨ptr :: r.resist,
          (if e.react_ptr_off ≠ UINT32_MAX then [(e.react_ptr_off, ptr + 1)] else []) ++
            r.reactWrites,
          (equ, unk) :: r.requests⟩

/-- Observable outcome of `init_matrix_klu` on one instance: the updated
`jacobian_ptr_resist` table, the reactive-pointer writes, the writes into
the `inst_matrix_ptrs` cache (index, value), and the COO addresses handed
to `bsearch` (one per lookup, in order). -/
structure KluResult where
  resist : List Nat
  reactWrites : List (Nat × Nat)
  instPtrs : List (Nat × Nat)
  lookups : List Nat
deriving DecidableEq

/-- `init_matrix_klu` from `osdisetup.c`.  `bindings` is the KLU
`BindElement` table as (COO address, CSC address, CSC_Complex address)
triples; the `bsearch` over the sorted table is modelled by key lookup.
For every Jacobian entry whose resolved endpoints are both non-ground the
previously stored COO address is re-resolved to the reordered CSC storage
(failure of the lookup is the `E_PANIC` early return); ground entries are
skipped without a lookup or any write.  `i` is the running entry index
(used for the `inst_matrix_ptrs[2*i]` writes), `resistIn` the current
`jacobian_ptr_resist` contents for the remaining entries. -/
def init_matrix_klu (bindings : List (Nat × Nat × Nat)) (mapping : List Nat) :
    Nat → List JacobianEntry → List Nat → Option KluResult
  | _, [], _ => some ⟨[], [], [], []⟩
  | i, e :: es, resistIn =>
    let equ := mapping.getD e.node_1 0
    let unk := mapping.getD e.node_2 0
    let coo := resistIn.headD 0
    if equ ≠ 0 ∧ unk ≠ 0 then
      match bindings.find? (fun b => b.1 == coo) with
      | none => none
      | some b =>
        match init_matrix_klu bindings mapping (i + 1) es resistIn.tail with
        | none => none
        | some r =>
          some ⟨b.2.1 :: r.resist,
            (if e.react_ptr_off ≠ UINT32_MAX then [(e.react_ptr_off, b.2.2 + 1)] else []) ++
              r.reactWrites,
            (2 * i, b.2.1) :: (2 * i + 1, b.2.2) :: r.instPtrs,
            coo :: r.lookups⟩
    else
      match init_matrix_klu bindings mapping (i + 1) es resistIn.tail with
      | none => none
      | some r => some ⟨coo :: r.resist, r.reactWrites, r.instPtrs, r.lookups⟩

/-- One device occurrence as seen by the `OSDIsetup` loops: an identifier
(for tracking which instances get processed), the `InitInfo` produced by
its `setup_instance` ABI call, the collapse-executed flags that call leaves
in the instance blob, and the terminal array behind the `GENinstance`. -/
structure InstData where
  id : Nat
  inst_info : InitInfo
  collapsed : List Bool
  terminals : List Int
deriving DecidableEq

/-- One device model as seen by the `OSDIsetup` outer loop: an identifier,
the `InitInfo` produced by its `setup_model` ABI call, and its instance
list. -/
structure ModelData where
  id : Nat
  model_info : InitInfo
  instances : List InstData
deriving DecidableEq

/-- The mutable state threaded through the `OSDIsetup` loops: the running
status `res`, the `*states` counter, the circuit's node counter (backing
`CKTmkVolt`/`CKTmkCur`), the ids of the instances whose node/matrix/state
setup completed, and the state-slot base recorded into each such
instance's `GENstate` (in processing order). -/
structure RunState where
  res : Nat
  states : Nat
  nodeCtr : Nat
  processed : List Nat
  stateBases : List Nat
deriving DecidableEq

/-- The per-instance state-slot demand computed once per descriptor at the
top of `OSDIsetup`: `num_states` plus 2 for every node whose
reactive-residual slot is requested. -/
def stateSlotSize (descr : OsdiDescriptor) : Nat :=
  descr.num_states + 2 * descr.nodes.countP (fun nd => nd.react_residual_off != UINT32_MAX)

/-- The body of the instance loop of `OSDIsetup`: handle the
`setup_instance` result (on error record the status and continue with the
next instance), otherwise run node collapsing/binding, bind the Jacobian
(`E_NOMEM` aborts the whole pass), record the instance's state-slot base
(`gen_inst->GENstate = *states`) and advance the state counter by
`stateSlotSize`. -/
def processInst (descr : OsdiDescriptor) (S : Nat) (mk : Nat → Nat → Option Nat)
    (st : RunState) (inst : InstData) : Except Nat RunState :=
  if (handle_init_info inst.inst_info).status ≠ OK then
    .ok { st with res := (handle_init_info inst.inst_info).status }
  else
    match init_matrix mk (setupNodes descr inst.collapsed inst.terminals st.nodeCtr).1
        descr.jacobian_entries with
    | none => .error E_NOMEM
    | some _ =>
      .ok ⟨OK, st.states + S, (setupNodes descr inst.collapsed inst.terminals st.nodeCtr).2.2,
        st.processed ++ [inst.id], st.stateBases ++ [st.states]⟩

/-- The instance loop of `OSDIsetup`. -/
def runInsts (descr : OsdiDescriptor) (S : Nat) (mk : Nat → Nat → Option Nat)
    (st : RunState) : List InstData → Except Nat RunState
  | [] => .ok st
  | i :: is =>
    match processInst descr S mk st i with
    | .error e => .error e
    | .ok st2 => runInsts descr S mk st2 is

/-- The body of the model loop of `OSDIsetup`: handle the `setup_model`
result (on error record the status and continue with the next model,
skipping this model's instances), otherwise process every instance. -/
def processModel (descr : OsdiDescriptor) (S : Nat) (mk : Nat → Nat → Option Nat)
    (st : RunState) (m : ModelData) : Except Nat RunState :=
  if (handle_init_info m.model_info).status ≠ OK then
    .ok { st with res := (handle_init_info m.model_info).status }
  else
    runInsts descr S mk { st with res := OK } m.instances

/-- The model loop of `OSDIsetup`. -/
def runModels (descr : OsdiDescriptor) (S : Nat) (mk : Nat → Nat → Option Nat)
    (st : RunState) : List ModelData → Except Nat RunState
  | [] => .ok st
  | m :: ms =>
    match processModel descr S mk st m with
    | .error e => .error e
    | .ok st2 => runModels descr S mk st2 ms

/-- `OSDIsetup` from `osdisetup.c`: iterate over the model chain (all models
of one registry entry share the descriptor), threading the status, state
counter and node counter; the value of `res` after the last model/instance
is what the function returns (`.error` captures the `return error` /
`return err` early exits for allocation failures). -/
def OSDIsetup (descr : OsdiDescriptor) (mk : Nat → Nat → Option Nat)
    (models : List ModelData) (states0 nodeCtr0 : Nat) : Except Nat RunState :=
  runModels descr (stateSlotSize descr) mk ⟨OK, states0, nodeCtr0, [], []⟩ models

/-! Concrete data used by counterexamples and witnesses. -/

/-- An `InitInfo` with the fatal flag set. -/
def infoFatal : InitInfo := ⟨true, false, []⟩

/-- A clean `InitInfo` (no flags, no errors). -/
def infoClean : InitInfo := ⟨false, false, []⟩

/-- An always-succeeding `SMPmakeElt` oracle. -/
def mkZero : Nat → Nat → Option Nat := fun _ _ => some 0

/-- An `SMPmakeElt` oracle returning address `7` for every pair. -/
def mkSeven : Nat → Nat → Option Nat := fun _ _ => some 7

/-- A one-node, zero-terminal descriptor with two declared states. -/
def d0 : OsdiDescriptor := ⟨1, 0, [], [], [⟨false, UINT32_MAX⟩], 2⟩

/-- A model whose `setup_model` reports the fatal flag; it owns one
instance (id 11). -/
def modelFatal : ModelData := ⟨1, infoFatal, [⟨11, infoClean, [], []⟩]⟩

/-- A model whose `setup_model` succeeds; it owns one clean instance
(id 21). -/
def modelClean : ModelData := ⟨2, infoClean, [⟨21, infoClean, [], []⟩]⟩

/-- A three-node, zero-terminal descriptor declaring the same collapsible
pair (1, 2) twice. -/
def d3 : OsdiDescriptor := ⟨3, 0, [⟨1, 2⟩, ⟨1, 2⟩], [], [], 0⟩

/-- The 3-terminal scenario descriptor: nodes {0: drain (terminal),
1: gate (terminal), 2: source (terminal), 3: internal}, one collapsible
pair (3, 2). -/
def d4 : OsdiDescriptor :=
  ⟨4, 3, [⟨3, 2⟩], [], List.replicate 4 ⟨false, UINT32_MAX⟩, 0⟩

/-- A one-node descriptor with two declared states and one
reactive-residual node, so `stateSlotSize` is `2 + 2·1 = 4`. -/
def d5 : OsdiDescriptor := ⟨1, 0, [], [], [⟨false, 3⟩], 2⟩

/-- A model for `d5` with two clean instances (ids 31, 32). -/
def modelTwoInsts : ModelData :=
  ⟨3, infoClean, [⟨31, infoClean, [], []⟩, ⟨32, infoClean, [], []⟩]⟩

/-!  Theorems.  -/

/-- C10: when an `InitInfo` has the fatal or finish flag set,
`handle_init_info` returns `E_PANIC` immediately — no error is reported,
`free(info.errors)` does not run and `errMsg` is untouched; the per-error
reporting, the free, and the error-count message happen exactly when
neither flag is set and the error list is non-empty. -/
theorem handle_init_info_fatal_short_circuits (info : InitInfo) :
    ((info.flag_fatal || info.flag_finish) = true →
      handle_init_info info = ⟨E_PANIC, [], false, none⟩) ∧
    ((info.flag_fatal || info.flag_finish) = false →
      (info.errors = [] → handle_init_info info = ⟨OK, [], false, none⟩) ∧
      (info.errors ≠ [] →
        handle_init_info info =
          ⟨E_PRIVATE, info.errors.map reportError, true, some info.errors.length⟩)) := by
  unfold handle_init_info
  constructor
  · intro h
    rw [h]
    simp
  · intro h
    rw [h]
    simp only [Bool.false_eq_true, if_false]
    constructor
    · intro h2
      simp [h2]
    · intro h2
      rw [if_neg (by simpa using h2)]

/-- Witness for C10 at two concrete inputs: a fatal `InitInfo` carrying one
structured error (which is neither reported nor freed), and a clean-flag
`InitInfo` with one out-of-bounds error (which is reported, freed and
counted). -/
theorem handle_init_info_fatal_short_circuits_witness :
    handle_init_info ⟨true, false, [⟨INIT_ERR_OUT_OF_BOUNDS, 4⟩]⟩ =
      ⟨E_PANIC, [], false, none⟩ ∧
    handle_init_info ⟨false, false, [⟨INIT_ERR_OUT_OF_BOUNDS, 4⟩]⟩ =
      ⟨E_PRIVATE, [.outOfBounds 4], true, some 1⟩ := by
  constructor
  · exact (handle_init_info_fatal_short_circuits ⟨true, false, [⟨INIT_ERR_OUT_OF_BOUNDS, 4⟩]⟩).1
      rfl
  · have h := ((handle_init_info_fatal_short_circuits
      ⟨false, false, [⟨INIT_ERR_OUT_OF_BOUNDS, 4⟩]⟩).2 rfl).2 (by simp)
    simpa [reportError] using h

/-- C1 counterexample: for the model list `[modelFatal, modelClean]` where
`modelFatal`'s `setup_model` returns the fatal flag, `OSDIsetup` does NOT
abort: it returns `OK` (not `E_PANIC`), and `modelClean`'s instance
(id 21) IS processed.  (`modelFatal`'s own instance, id 11, is the only
one skipped.) -/
theorem osdisetup_fatal_scenario_counterexample :
    OSDIsetup d0 mkZero [modelFatal, modelClean] 0 1 = .ok ⟨OK, 2, 2, [21], [0]⟩ ∧
      OK ≠ E_PANIC := by
  constructor
  · rfl
  · decide

/-- C1 amended: when `setup_model` reports the fatal/finish flag for the
first model, that model's instances are never processed and the running
status is set to `E_PANIC`, but the pass is not aborted: the remaining
models are processed from unchanged counters, so the final status is
whatever the last processed model/instance leaves behind. -/
theorem OSDIsetup_fatal_model_skips_and_continues (descr : OsdiDescriptor)
    (mk : Nat → Nat → Option Nat) (m1 : ModelData) (rest : List ModelData)
    (s0 n0 : Nat)
    (hfatal : (m1.model_info.flag_fatal || m1.model_info.flag_finish) = true) :
    OSDIsetup descr mk (m1 :: rest) s0 n0 =
      runModels descr (stateSlotSize descr) mk ⟨E_PANIC, s0, n0, [], []⟩ rest := by
  have hh : handle_init_info m1.model_info = ⟨E_PANIC, [], false, none⟩ := by
    unfold handle_init_info
    rw [hfatal]
    simp
  unfold OSDIsetup
  simp only [runModels, processModel, hh]
  rw [if_pos (by decide)]

/-- Witness for the amended C1 at the concrete `[modelFatal, modelClean]`
list. -/
theorem OSDIsetup_fatal_model_skips_and_continues_witness :
    OSDIsetup d0 mkZero [modelFatal, modelClean] 0 1 =
      runModels d0 (stateSlotSize d0) mkZero ⟨E_PANIC, 0, 1, [], []⟩ [modelClean] :=
  OSDIsetup_fatal_model_skips_and_continues d0 mkZero modelFatal [modelClean] 0 1 rfl

/-- When the model loop finishes normally on `ms ++ [m]`, the final state is
produced by processing the last model `m` from some intermediate state. -/
theorem runModels_append_last (descr : OsdiDescriptor) (S : Nat)
    (mk : Nat → Nat → Option Nat) (ms : List ModelData) (m : ModelData) :
    ∀ st r, runModels descr S mk st (ms ++ [m]) = .ok r →
      ∃ st2, processModel descr S mk st2 m = .ok r := by
  induction ms with
  | nil =>
    intro st r h
    rw [List.nil_append] at h
    simp only [runModels] at h
    cases hp : processModel descr S mk st m with
    | error e => rw [hp] at h; cases h
    | ok st2 =>
      rw [hp] at h
      simp only [runModels] at h
      cases h
      exact ⟨st, hp⟩
  | cons m0 ms ih =>
    intro st r h
    rw [List.cons_append] at h
    simp only [runModels] at h
    cases hp : processModel descr S mk st m0 with
    | error e => rw [hp] at h; cases h
    | ok st2 =>
      rw [hp] at h
      exact ih st2 r h

/-- If every instance of the list is clean (its `setup_instance` result is
handled to `OK`) then the instance loop, run to completion from a state
with `res = OK`, ends with `res = OK`. -/
theorem runInsts_clean (descr : OsdiDescriptor) (S : Nat)
    (mk : Nat → Nat → Option Nat) :
    ∀ (is : List InstData) (st r : RunState),
      (∀ i ∈ is, (handle_init_info i.inst_info).status = OK) →
      runInsts descr S mk st is = .ok r → st.res = OK → r.res = OK := by
  intro is
  induction is with
  | nil =>
    intro st r _ h hres
    simp only [runInsts] at h
    cases h
    exact hres
  | cons i is ih =>
    intro st r hclean h hres
    have hi : (handle_init_info i.inst_info).status = OK := hclean i (by simp)
    simp only [runInsts, processInst, hi, ne_eq, not_true_eq_false, if_false] at h
    cases hm : init_matrix mk (setupNodes descr i.collapsed i.terminals st.nodeCtr).1
        descr.jacobian_entries with
    | none => rw [hm] at h; cases h
    | some v =>
      rw [hm] at h
      exact ih _ r (fun j hj => hclean j (List.mem_cons_of_mem _ hj)) h rfl

/-- C9: the status returned by `OSDIsetup` reflects only the most recently
processed model/instance.  Whenever the pass runs to completion (no
allocation failure) and the LAST model in the chain is clean (its
`setup_model` and all of its instances' `setup_instance` calls are handled
to `OK`), the final status is `OK` — irrespective of any `E_PANIC` or
`E_PRIVATE` produced by earlier models or instances, which are therefore
masked rather than aggregated. -/
theorem OSDIsetup_last_model_determines_status (descr : OsdiDescriptor)
    (mk : Nat → Nat → Option Nat) (ms : List ModelData) (m : ModelData)
    (s0 n0 : Nat) (r : RunState)
    (hrun : OSDIsetup descr mk (ms ++ [m]) s0 n0 = .ok r)
    (hm : (handle_init_info m.model_info).status = OK)
    (hi : ∀ i ∈ m.instances, (handle_init_info i.inst_info).status = OK) :
    r.res = OK := by
  obtain ⟨st2, hp⟩ := runModels_append_last descr (stateSlotSize descr) mk ms m _ r hrun
  rw [processModel, if_neg (by simp [hm])] at hp
  exact runInsts_clean descr (stateSlotSize descr) mk m.instances _ r hi hp rfl

/-- Witness for C9: the earlier model `modelFatal` reports a fatal error,
the later model `modelClean` succeeds, and the returned status is `OK`
with both `modelClean`'s instance processed — the earlier Panic is masked. -/
theorem OSDIsetup_last_model_determines_status_witness :
    OSDIsetup d0 mkZero ([modelFatal] ++ [modelClean]) 0 1 =
      .ok ⟨OK, 2, 2, [21], [0]⟩ ∧
    (⟨OK, 2, 2, [21], [0]⟩ : RunState).res = OK := by
  refine ⟨rfl, ?_⟩
  exact OSDIsetup_last_model_determines_status d0 mkZero [modelFatal] modelClean 0 1
    ⟨OK, 2, 2, [21], [0]⟩ rfl rfl (by intro i hmem; fin_cases hmem; rfl)

/-- C2 counterexample: a Jacobian entry whose resolved equation endpoint is
global index 0 (ground) is NOT skipped by the plain binding pass:
`init_matrix` still calls `SMPmakeElt` for the pair `(0, 1)` (the request
log is non-empty) and stores the returned address in
`jacobian_ptr_resist`. -/
theorem jacobian_ground_skip_counterexample :
    init_matrix mkSeven [0, 1] [⟨0, 1, UINT32_MAX⟩] = some ⟨[7], [], [(0, 1)]⟩ ∧
      ([((0 : Nat), (1 : Nat))] : List (Nat × Nat)) ≠ [] := by
  exact ⟨rfl, by decide⟩

/-- C2 amended: the silent skipping of ground-row/ground-column Jacobian
entries happens only in the reordering-solver binding pass:
`init_matrix_klu` performs a binding-table lookup exactly for the entries
whose resolved endpoints are both non-zero (ground entries trigger no
lookup), whereas the plain pass `init_matrix` requests a coefficient
address from `SMPmakeElt` for every declared entry, ground ones included —
ground handling there is delegated to the matrix collaborator. -/
theorem jacobian_ground_handling :
    (∀ (mk : Nat → Nat → Option Nat) (mapping : List Nat) (es : List JacobianEntry)
        (r : InitMatrixResult), init_matrix mk mapping es = some r →
        r.requests = es.map (fun e => (mapping.getD e.node_1 0, mapping.getD e.node_2 0))) ∧
    (∀ (bindings : List (Nat × Nat × Nat)) (mapping : List Nat)
        (es : List JacobianEntry) (i : Nat) (resistIn : List Nat) (r : KluResult),
        es.length ≤ resistIn.length →
        init_matrix_klu bindings mapping i es resistIn = some r →
        r.lookups = (es.zip resistIn).filterMap (fun p =>
          if mapping.getD p.1.node_1 0 ≠ 0 ∧ mapping.getD p.1.node_2 0 ≠ 0
          then some p.2 else none)) := by
  constructor
  · intro mk mapping es
    induction es with
    | nil =>
      intro r h
      simp only [init_matrix] at h
      cases h
      rfl
    | cons e es ih =>
      intro r h
      simp only [init_matrix] at h
      cases h1 : mk (mapping.getD e.node_1 0) (mapping.getD e.node_2 0) with
      | none => rw [h1] at h; cases h
      | some ptr =>
        rw [h1] at h
        cases h2 : init_matrix mk mapping es with
        | none => rw [h2] at h; cases h
        | some r2 =>
          rw [h2] at h
          cases h
          simpa using ih r2 h2
  · intro bindings mapping es
    induction es with
    | nil =>
      intro i resistIn r _ h
      simp only [init_matrix_klu] at h
      cases h
      rfl
    | cons e es ih =>
      intro i resistIn r hlen h
      cases resistIn with
      | nil => simp at hlen
      | cons c cs =>
        simp only [init_matrix_klu] at h
        by_cases hg : mapping.getD e.node_1 0 ≠ 0 ∧ mapping.getD e.node_2 0 ≠ 0
        · rw [if_pos hg] at h
          cases h3 : bindings.find? (fun b => b.1 == (c :: cs).headD 0) with
          | none => rw [h3] at h; cases h
          | some b =>
            rw [h3] at h
            cases h4 : init_matrix_klu bindings mapping (i + 1) es (c :: cs).tail with
            | none => rw [h4] at h; cases h
            | some r2 =>
              rw [h4] at h
              cases h
              have hrec := ih (i + 1) cs r2 (by simpa using hlen) h4
              simp only [List.zip_cons_cons, List.filterMap_cons]
              rw [if_pos hg]
              exact congrArg (fun l => c :: l) hrec
        · rw [if_neg hg] at h
          cases h4 : init_matrix_klu bindings mapping (i + 1) es (c :: cs).tail with
          | none => rw [h4] at h; cases h
          | some r2 =>
            rw [h4] at h
            cases h
            have hrec := ih (i + 1) cs r2 (by simpa using hlen) h4
            simp only [List.zip_cons_cons, List.filterMap_cons]
            rw [if_neg hg]
            exact hrec

/-- Witness for the amended C2: one ground entry and one non-ground entry;
`init_matrix` requests both pairs from `SMPmakeElt`, while
`init_matrix_klu` looks up only the non-ground entry's address. -/
theorem jacobian_ground_handling_witness :
    ([⟨0, 1, UINT32_MAX⟩, ⟨2, 1, UINT32_MAX⟩] : List JacobianEntry).length ≤
        ([7, 8] : List Nat).length ∧
    (⟨[7, 7], [], [(0, 1), (2, 1)]⟩ : InitMatrixResult).requests =
      ([⟨0, 1, UINT32_MAX⟩, ⟨2, 1, UINT32_MAX⟩] : List JacobianEntry).map
        (fun e => (([0, 1, 2] : List Nat).getD e.node_1 0, ([0, 1, 2] : List Nat).getD e.node_2 0)) ∧
    (⟨[7, 50], [], [(2, 50), (3, 60)], [8]⟩ : KluResult).lookups =
      (([⟨0, 1, UINT32_MAX⟩, ⟨2, 1, UINT32_MAX⟩] : List JacobianEntry).zip
          ([7, 8] : List Nat)).filterMap (fun p =>
        if ([0, 1, 2] : List Nat).getD p.1.node_1 0 ≠ 0 ∧
            ([0, 1, 2] : List Nat).getD p.1.node_2 0 ≠ 0
        then some p.2 else none) := by
  refine ⟨by decide, ?_, ?_⟩
  · exact jacobian_ground_handling.1 mkSeven [0, 1, 2]
      [⟨0, 1, UINT32_MAX⟩, ⟨2, 1, UINT32_MAX⟩] ⟨[7, 7], [], [(0, 1), (2, 1)]⟩ rfl
  · exact jacobian_ground_handling.2 [(8, 50, 60)] [0, 1, 2]
      [⟨0, 1, UINT32_MAX⟩, ⟨2, 1, UINT32_MAX⟩] 0 [7, 8] ⟨[7, 50], [], [(2, 50), (3, 60)], [8]⟩
      (by decide) rfl

/-- C8: on a successful `init_matrix` run, the writes through the reactive
pointers are exactly one per entry declaring a reactive component
(`react_ptr_off ≠ UINT32_MAX`), each storing the address one slot past
that entry's resistive coefficient address; entries without a reactive
component contribute no write besides their `jacobian_ptr_resist` slot. -/
theorem init_matrix_reactive_one_past_resistive (mk : Nat → Nat → Option Nat)
    (mapping : List Nat) (es : List JacobianEntry) (r : InitMatrixResult)
    (h : init_matrix mk mapping es = some r) :
    r.resist.length = es.length ∧
    r.reactWrites = (es.zip r.resist).filterMap (fun p =>
      if p.1.react_ptr_off ≠ UINT32_MAX then some (p.1.react_ptr_off, p.2 + 1)
      else none) := by
  induction es generalizing r with
  | nil =>
    simp only [init_matrix] at h
    cases h
    exact ⟨rfl, rfl⟩
  | cons e es ih =>
    simp only [init_matrix] at h
    cases h1 : mk (mapping.getD e.node_1 0) (mapping.getD e.node_2 0) with
    | none => rw [h1] at h; cases h
    | some ptr =>
      rw [h1] at h
      cases h2 : init_matrix mk mapping es with
      | none => rw [h2] at h; cases h
      | some r2 =>
        rw [h2] at h
        cases h
        obtain ⟨ihl, ihw⟩ := ih r2 h2
        constructor
        · simpa using ihl
        · by_cases hr : e.react_ptr_off ≠ UINT32_MAX
          · simp [hr, ihw]
          · simp [hr, ihw]

/-- Witness for C8: two entries, one with a reactive component at offset 5
and one without; the reactive write is `(5, resistive address + 1)`. -/
theorem init_matrix_reactive_one_past_resistive_witness :
    (⟨[21, 21], [(5, 22)], [(1, 2), (2, 1)]⟩ : InitMatrixResult).resist.length =
      ([⟨0, 1, 5⟩, ⟨1, 0, UINT32_MAX⟩] : List JacobianEntry).length ∧
    (⟨[21, 21], [(5, 22)], [(1, 2), (2, 1)]⟩ : InitMatrixResult).reactWrites =
      (([⟨0, 1, 5⟩, ⟨1, 0, UINT32_MAX⟩] : List JacobianEntry).zip
          ([21, 21] : List Nat)).filterMap (fun p =>
        if p.1.react_ptr_off ≠ UINT32_MAX then some (p.1.react_ptr_off, p.2 + 1)
        else none) :=
  init_matrix_reactive_one_past_resistive (fun _ _ => some 21) [1, 2]
    [⟨0, 1, 5⟩, ⟨1, 0, UINT32_MAX⟩] ⟨[21, 21], [(5, 22)], [(1, 2), (2, 1)]⟩ rfl

/-- C7: the per-collapse index compaction of `collapse_nodes` (the inner
loop over `node_mapping`, embodied by `mergeMap` with resolved source
representative `fr` and target `tr`) is monotonic on survivors: any two
mapping values `a < b` that both survive the step (neither is the removed
representative `fr`, neither is the ground sentinel) keep their relative
order, and the ground sentinel itself is preserved unchanged. -/
theorem mergeMap_monotone_and_ground_preserving (fr tr a b : Nat)
    (hfr : fr ≠ UINT32_MAX) (ha : a ≠ fr) (hb : b ≠ fr)
    (haM : a < UINT32_MAX) (hbM : b < UINT32_MAX) (hab : a < b) :
    mergeMap fr tr a < mergeMap fr tr b ∧
      mergeMap fr tr UINT32_MAX = UINT32_MAX := by
  have haM' : a ≠ UINT32_MAX := Nat.ne_of_lt haM
  have hbM' : b ≠ UINT32_MAX := Nat.ne_of_lt hbM
  constructor
  · unfold mergeMap
    rw [if_neg ha, if_neg hb]
    by_cases h1 : fr < a
    · have h2 : fr < b := lt_trans h1 hab
      rw [if_pos ⟨h1, haM'⟩, if_pos ⟨h2, hbM'⟩]
      omega
    · have h1' : a < fr := by omega
      rw [if_neg (fun hc => h1 hc.1)]
      by_cases h2 : fr < b
      · rw [if_pos ⟨h2, hbM'⟩]
        omega
      · rw [if_neg (fun hc => h2 hc.1)]
        exact hab
  · unfold mergeMap
    rw [if_neg (fun hc : UINT32_MAX = fr => hfr hc.symm),
      if_neg (fun hc => hc.2 rfl)]

/-- Witness for C7 at `fr = 2`, `tr = 1`, survivors `1 < 3`. -/
theorem mergeMap_monotone_and_ground_preserving_witness :
    mergeMap 2 1 1 < mergeMap 2 1 3 ∧ mergeMap 2 1 UINT32_MAX = UINT32_MAX :=
  mergeMap_monotone_and_ground_preserving 2 1 1 3 (by decide) (by decide) (by decide)
    (by decide) (by decide) (by decide)

/-- `getD` through `map` at an in-range index. -/
theorem getD_map_lt (f : Nat → Nat) (l : List Nat) :
    ∀ i, i < l.length → (l.map f).getD i 0 = f (l.getD i 0) := by
  induction l with
  | nil => intro i h; simp at h
  | cons x xs ih =>
    intro i h
    cases i with
    | zero => simp
    | succ j => simpa using ih j (by simpa using h)

/-- `getD` of an append, index inside the first part. -/
theorem getD_append_lt (l1 l2 : List Nat) :
    ∀ i, i < l1.length → (l1 ++ l2).getD i 0 = l1.getD i 0 := by
  induction l1 with
  | nil => intro i h; simp at h
  | cons x xs ih =>
    intro i h
    cases i with
    | zero => simp
    | succ j => simpa using ih j (by simpa using h)

/-- `getD` of an append, index past the first part. -/
theorem getD_append_ge (l1 l2 : List Nat) :
    ∀ i, l1.length ≤ i → (l1 ++ l2).getD i 0 = l2.getD (i - l1.length) 0 := by
  induction l1 with
  | nil => intro i _; simp
  | cons x xs ih =>
    intro i h
    cases i with
    | zero => simp at h
    | succ j => simpa using ih j (by simpa using h)

/-- `getD` of `range'` at an in-range index. -/
theorem getD_range' (s : Nat) :
    ∀ n i, i < n → (List.range' s n).getD i 0 = s + i := by
  intro n
  induction n generalizing s with
  | zero => intro i h; simp at h
  | succ m ih =>
    intro i h
    rw [List.range'_succ]
    cases i with
    | zero => simp
    | succ j =>
      have := ih (s + 1) j (by omega)
      simp only [List.getD_cons_succ, this]
      omega

/-- An in-range `getD` returns a member of the list. -/
theorem getD_mem (l : List Nat) :
    ∀ i, i < l.length → l.getD i 0 ∈ l := by
  induction l with
  | nil => intro i h; simp at h
  | cons x xs ih =>
    intro i h
    cases i with
    | zero => simp
    | succ j =>
      simp only [List.getD_cons_succ]
      exact List.mem_cons_of_mem _ (ih j (by simpa using h))

/-- C6: `write_node_mapping`, applied to a collapsed mapping whose entries
all point at surviving nodes (`< count`) or at the ground sentinel, and to
the `node_ids` buffer exactly as `OSDIsetup` fills it (caller-supplied
terminal ids below `connected_terminal_count`, freshly allocated
consecutive ids `ctr, ctr+1, …` for the remaining surviving nodes),
rewrites every sentinel entry to global index 0 and every other entry to
the global id of the compacted node it pointed at; consequently every
final entry is 0, a caller-supplied terminal id, or a freshly allocated
id. -/
theorem write_node_mapping_globalizes (mapping termIds : List Nat)
    (count ct ctr : Nat) (hok : mappingOK count mapping)
    (hct : termIds.length = ct) (hle : ct ≤ count) :
    (write_node_mapping mapping (termIds ++ List.range' ctr (count - ct))).length =
        mapping.length ∧
    (∀ i, i < mapping.length →
      (write_node_mapping mapping (termIds ++ List.range' ctr (count - ct))).getD i 0 =
        (if mapping.getD i 0 = UINT32_MAX then 0
         else if mapping.getD i 0 < ct then termIds.getD (mapping.getD i 0) 0
         else ctr + (mapping.getD i 0 - ct))) ∧
    (∀ x ∈ write_node_mapping mapping (termIds ++ List.range' ctr (count - ct)),
      x = 0 ∨ x ∈ termIds ∨ x ∈ List.range' ctr (count - ct)) := by
  refine ⟨by simp [write_node_mapping], ?_, ?_⟩
  · intro i hi
    rw [write_node_mapping, getD_map_lt _ _ i hi]
    by_cases hv : mapping.getD i 0 = UINT32_MAX
    · rw [if_pos hv, if_pos hv]
    · rw [if_neg hv, if_neg hv]
      have hvc : mapping.getD i 0 < count :=
        (hok _ (getD_mem mapping i hi)).resolve_right hv
      by_cases hvt : mapping.getD i 0 < ct
      · rw [if_pos hvt, getD_append_lt _ _ _ (by omega)]
      · rw [if_neg hvt, getD_append_ge _ _ _ (by omega), hct,
          getD_range' _ _ _ (by omega)]
  · intro x hx
    rw [write_node_mapping] at hx
    obtain ⟨v, hv, rfl⟩ := List.mem_map.1 hx
    by_cases hvM : v = UINT32_MAX
    · left
      simp [hvM]
    · right
      rw [if_neg hvM]
      have hvc : v < count := (hok v hv).resolve_right hvM
      have hlen : v < (termIds ++ List.range' ctr (count - ct)).length := by
        simp [hct]
        omega
      exact List.mem_append.1 (getD_mem _ v hlen)

/-- Witness for C6: mapping `[0, 1, 2, 2, UINT32_MAX]` with 3 surviving
nodes, 2 connected terminals with ids `[4, 9]`, fresh ids starting at 50.
The rewritten mapping is `[4, 9, 50, 50, 0]`. -/
theorem write_node_mapping_globalizes_witness :
    mappingOK 3 [0, 1, 2, 2, UINT32_MAX] ∧
    (write_node_mapping [0, 1, 2, 2, UINT32_MAX] ([4, 9] ++ List.range' 50 (3 - 2))).length =
        ([0, 1, 2, 2, UINT32_MAX] : List Nat).length ∧
    (∀ i, i < ([0, 1, 2, 2, UINT32_MAX] : List Nat).length →
      (write_node_mapping [0, 1, 2, 2, UINT32_MAX]
          ([4, 9] ++ List.range' 50 (3 - 2))).getD i 0 =
        (if ([0, 1, 2, 2, UINT32_MAX] : List Nat).getD i 0 = UINT32_MAX then 0
         else if ([0, 1, 2, 2, UINT32_MAX] : List Nat).getD i 0 < 2 then
           ([4, 9] : List Nat).getD (([0, 1, 2, 2, UINT32_MAX] : List Nat).getD i 0) 0
         else 50 + (([0, 1, 2, 2, UINT32_MAX] : List Nat).getD i 0 - 2))) ∧
    (∀ x ∈ write_node_mapping [0, 1, 2, 2, UINT32_MAX] ([4, 9] ++ List.range' 50 (3 - 2)),
      x = 0 ∨ x ∈ ([4, 9] : List Nat) ∨ x ∈ List.range' 50 (3 - 2)) := by
  refine ⟨?_, write_node_mapping_globalizes [0, 1, 2, 2, UINT32_MAX] [4, 9] 3 2 50
    ?_ (by decide) (by decide)⟩
  · intro v hv
    fin_cases hv <;> simp [UINT32_MAX]
  · intro v hv
    fin_cases hv <;> simp [UINT32_MAX]

/-- C4: the 3-terminal scenario.  For descriptor `d4` (nodes
{0: drain (terminal), 1: gate (terminal), 2: source (terminal),
3: internal}) with the single collapsible pair (3, 2) flagged executed and
all three terminals connected (with pairwise distinct global ids
`t0, t1, t2`): `collapse_nodes` returns surviving count 3 with node 3
mapped to node 2 and node 2 mapped to its own compacted index 2; the node
setup allocates no new internal node and produces the global mapping
`[t0, t1, t2, t2]`, which has exactly 3 distinct indices. -/
theorem scenario_internal_collapses_to_source (t0 t1 t2 ctr : Nat)
    (h01 : t0 ≠ t1) (h02 : t0 ≠ t2) (h12 : t1 ≠ t2) :
    collapse_nodes d4 [true] 3 = (3, [0, 1, 2, 2]) ∧
    setupNodes d4 [true] [(t0 : Int), (t1 : Int), (t2 : Int)] ctr =
      ([t0, t1, t2, t2], [], ctr) ∧
    ([t0, t1, t2, t2] : List Nat).toFinset.card = 3 := by
  have hne : ∀ n : Nat, ¬((n : Int) = -1) := fun n => by omega
  have hct : connectedTerminals [(t0 : Int), (t1 : Int), (t2 : Int)] = 3 := by
    unfold connectedTerminals
    simp [findUnconnected, hne t0, hne t1, hne t2]
  refine ⟨rfl, ?_, ?_⟩
  · simp only [setupNodes, hct]
    rw [show collapse_nodes d4 [true] 3 = (3, [0, 1, 2, 2]) from rfl]
    simp [write_node_mapping, List.getD, UINT32_MAX]
  · have htf : ([t0, t1, t2, t2] : List Nat).toFinset = insert t0 (insert t1 {t2}) := by
      simp
    rw [htf, Finset.card_insert_of_not_mem (by simp [h01, h02]),
      Finset.card_insert_of_not_mem (by simp [h12]), Finset.card_singleton]

/-- Witness for C4 at terminal ids 5, 7, 9 and node counter 100. -/
theorem scenario_internal_collapses_to_source_witness :
    collapse_nodes d4 [true] 3 = (3, [0, 1, 2, 2]) ∧
    setupNodes d4 [true] [(5 : Int), (7 : Int), (9 : Int)] 100 =
      ([5, 7, 9, 9], [], 100) ∧
    ([5, 7, 9, 9] : List Nat).toFinset.card = 3 :=
  scenario_internal_collapses_to_source 5 7 9 100 (by decide) (by decide) (by decide)

/-- A collapse step that does not execute (flag clear, or skipped by the
terminal-protection guard) leaves the state unchanged. -/
theorem collapsePair_not_exec (ct : Nat) (st : Nat × List Nat)
    (pc : CollapsiblePair × Bool) (h : stepExecutes ct st.2 pc = false) :
    collapsePair ct st pc.1 pc.2 = st := by
  unfold collapsePair
  cases hf : pc.2 with
  | false => rw [if_pos (by decide)]
  | true =>
    have hg : collapseGuard ct st.2 pc.1 = true := by
      unfold stepExecutes at h
      rw [hf] at h
      simpa using h
    rw [if_neg (by decide), if_pos hg]

/-- An executing collapse step decrements the node count (with `uint32`
wrap at 0) and applies `mergeMap` with the resolved representatives to
every mapping entry. -/
theorem collapsePair_exec (ct : Nat) (st : Nat × List Nat)
    (pc : CollapsiblePair × Bool) (h : stepExecutes ct st.2 pc = true) :
    collapsePair ct st pc.1 pc.2 =
      (if st.1 = 0 then UINT32_MAX else st.1 - 1,
       st.2.map (mergeMap (st.2.getD (collapseOrient st.2 pc.1).1 0)
         (if (collapseOrient st.2 pc.1).2 = UINT32_MAX then UINT32_MAX
          else st.2.getD (collapseOrient st.2 pc.1).2 0))) := by
  unfold stepExecutes at h
  rw [Bool.and_eq_true] at h
  obtain ⟨hf, hg⟩ := h
  unfold collapsePair
  rw [if_neg (by rw [hf]; simp), if_neg (by simpa using hg)]

/-- The oriented source side of a statically valid pair is a real node
index. -/
theorem collapseOrient_fst_lt (n0 : Nat) (mapping : List Nat) (p : CollapsiblePair)
    (hp : pairValid n0 p = true) : (collapseOrient mapping p).1 < n0 := by
  unfold pairValid at hp
  rw [Bool.and_eq_true, Bool.or_eq_true] at hp
  obtain ⟨h1, h2⟩ := hp
  unfold collapseOrient
  split
  · rename_i hcond
    rcases h2 with h2 | h2
    · exact of_decide_eq_true h2
    · exact absurd (of_decide_eq_true h2) hcond.1
  · exact of_decide_eq_true h1

/-- The oriented target side of a statically valid pair is a real node
index whenever it is not the ground sentinel. -/
theorem collapseOrient_snd_lt (n0 : Nat) (mapping : List Nat) (p : CollapsiblePair)
    (hp : pairValid n0 p = true) (hne : (collapseOrient mapping p).2 ≠ UINT32_MAX) :
    (collapseOrient mapping p).2 < n0 := by
  unfold pairValid at hp
  rw [Bool.and_eq_true, Bool.or_eq_true] at hp
  obtain ⟨h1, h2⟩ := hp
  unfold collapseOrient at hne ⊢
  split at hne
  · rename_i hcond
    rw [if_pos hcond]
    exact of_decide_eq_true h1
  · rename_i hcond
    rw [if_neg hcond]
    rcases h2 with h2 | h2
    · exact of_decide_eq_true h2
    · exact absurd (of_decide_eq_true h2) hne

/-- After orientation, the target's current representative is at most the
source's (the swap ensures the smaller representative is the target). -/
theorem collapseOrient_ge (mapping : List Nat) (p : CollapsiblePair)
    (hne : (collapseOrient mapping p).2 ≠ UINT32_MAX) :
    mapping.getD (collapseOrient mapping p).2 0 ≤
      mapping.getD (collapseOrient mapping p).1 0 := by
  unfold collapseOrient at hne ⊢
  by_cases hc : p.node_2 ≠ UINT32_MAX ∧
      mapping.getD p.node_1 0 < mapping.getD p.node_2 0
  · rw [if_pos hc]
    exact le_of_lt hc.2
  · rw [if_neg hc] at hne ⊢
    by_cases hm : mapping.getD p.node_1 0 < mapping.getD p.node_2 0
    · exact absurd ⟨hne, hm⟩ hc
    · show mapping.getD p.node_2 0 ≤ mapping.getD p.node_1 0
      omega

/-- Unpacking `stepWF` at an executing step: the oriented source
representative is not the ground sentinel, and for a non-ground target the
target representative is neither the sentinel nor equal to the source
representative. -/
theorem stepWF_of_exec (ct : Nat) (mapping : List Nat) (pc : CollapsiblePair × Bool)
    (hwf : stepWF ct mapping pc = true) (hexec : stepExecutes ct mapping pc = true) :
    mapping.getD (collapseOrient mapping pc.1).1 0 ≠ UINT32_MAX ∧
    ((collapseOrient mapping pc.1).2 ≠ UINT32_MAX →
      mapping.getD (collapseOrient mapping pc.1).2 0 ≠ UINT32_MAX ∧
      mapping.getD (collapseOrient mapping pc.1).1 0 ≠
        mapping.getD (collapseOrient mapping pc.1).2 0) := by
  unfold stepWF at hwf
  rw [hexec] at hwf
  simp only [Bool.not_true, Bool.false_or] at hwf
  rw [Bool.and_eq_true, Bool.or_eq_true] at hwf
  obtain ⟨h1, h2⟩ := hwf
  refine ⟨of_decide_eq_true h1, fun hne => ?_⟩
  rcases h2 with h2 | h2
  · exact absurd (of_decide_eq_true h2) hne
  · rw [Bool.and_eq_true] at h2
    exact ⟨of_decide_eq_true h2.1, of_decide_eq_true h2.2⟩

/-- Invariant of the collapse loop over a well-formed trace: the mapping
keeps its length, every entry points at a surviving node or the ground
sentinel, every surviving index is hit by some entry, the node count never
grows, and it drops by exactly one per executing step. -/
theorem collapseLoop_wf (ct n0 : Nat) (hn0 : n0 ≤ UINT32_MAX) :
    ∀ (pcs : List (CollapsiblePair × Bool)) (st : Nat × List Nat),
      st.2.length = n0 → st.1 ≤ n0 → mappingOK st.1 st.2 →
      (∀ u, u < st.1 → u ∈ st.2) →
      traceWF ct n0 st pcs = true →
      (collapseLoop ct st pcs).2.length = n0 ∧
      (collapseLoop ct st pcs).1 ≤ st.1 ∧
      mappingOK (collapseLoop ct st pcs).1 (collapseLoop ct st pcs).2 ∧
      (∀ u, u < (collapseLoop ct st pcs).1 → u ∈ (collapseLoop ct st pcs).2) ∧
      (collapseLoop ct st pcs).1 + execCount ct st pcs = st.1 := by
  intro pcs
  induction pcs with
  | nil =>
    intro st hlen hle hok hsurj _
    simp only [collapseLoop, execCount]
    exact ⟨hlen, le_refl _, hok, hsurj, rfl⟩
  | cons pc pcs ih =>
    intro st hlen hle hok hsurj hwf
    unfold traceWF at hwf
    rw [Bool.and_eq_true, Bool.and_eq_true] at hwf
    obtain ⟨⟨hpv, hsw⟩, htl⟩ := hwf
    simp only [collapseLoop, execCount]
    by_cases hexec : stepExecutes ct st.2 pc = true
    · -- the step executes: one representative is merged away and compacted
      obtain ⟨hWF1, hWF2⟩ := stepWF_of_exec ct st.2 pc hsw hexec
      have hfn0 : (collapseOrient st.2 pc.1).1 < n0 :=
        collapseOrient_fst_lt n0 st.2 pc.1 hpv
      have hfrmem : st.2.getD (collapseOrient st.2 pc.1).1 0 ∈ st.2 :=
        getD_mem st.2 _ (by omega)
      have hfrlt : st.2.getD (collapseOrient st.2 pc.1).1 0 < st.1 :=
        (hok _ hfrmem).resolve_right hWF1
      have hne0 : ¬ st.1 = 0 := by omega
      have hstep := collapsePair_exec ct st pc hexec
      rw [if_neg hne0] at hstep
      rw [hstep] at htl ⊢
      -- invariants at the post-step state
      have htrlt : (if (collapseOrient st.2 pc.1).2 = UINT32_MAX then UINT32_MAX
          else st.2.getD (collapseOrient st.2 pc.1).2 0) = UINT32_MAX ∨
          ((if (collapseOrient st.2 pc.1).2 = UINT32_MAX then UINT32_MAX
            else st.2.getD (collapseOrient st.2 pc.1).2 0) <
              st.2.getD (collapseOrient st.2 pc.1).1 0) := by
        by_cases hg : (collapseOrient st.2 pc.1).2 = UINT32_MAX
        · exact Or.inl (if_pos hg)
        · rw [if_neg hg]
          have h1 := collapseOrient_ge st.2 pc.1 hg
          have h2 := (hWF2 hg).2
          exact Or.inr (by omega)
      have hok' : mappingOK (st.1 - 1)
          (st.2.map (mergeMap (st.2.getD (collapseOrient st.2 pc.1).1 0)
            (if (collapseOrient st.2 pc.1).2 = UINT32_MAX then UINT32_MAX
             else st.2.getD (collapseOrient st.2 pc.1).2 0))) := by
        intro w hw
        obtain ⟨v, hvmem, rfl⟩ := List.mem_map.1 hw
        rcases hok v hvmem with hv | hv
        · unfold mergeMap
          by_cases hvf : v = st.2.getD (collapseOrient st.2 pc.1).1 0
          · rw [if_pos hvf]
            rcases htrlt with h | h
            · exact Or.inr h
            · left
              omega
          · rw [if_neg hvf]
            by_cases hlt : st.2.getD (collapseOrient st.2 pc.1).1 0 < v
            · rw [if_pos ⟨hlt, by omega⟩]
              left
              omega
            · rw [if_neg (fun hc => hlt hc.1)]
              left
              omega
        · unfold mergeMap
          rw [if_neg (by omega), if_neg (fun hc => hc.2 hv)]
          exact Or.inr hv
      have hsurj' : ∀ u, u < st.1 - 1 →
          u ∈ st.2.map (mergeMap (st.2.getD (collapseOrient st.2 pc.1).1 0)
            (if (collapseOrient st.2 pc.1).2 = UINT32_MAX then UINT32_MAX
             else st.2.getD (collapseOrient st.2 pc.1).2 0)) := by
        intro u hu
        by_cases hcase : u < st.2.getD (collapseOrient st.2 pc.1).1 0
        · refine List.mem_map.2 ⟨u, hsurj u (by omega), ?_⟩
          unfold mergeMap
          rw [if_neg (by omega), if_neg (fun hc => by omega)]
        · refine List.mem_map.2 ⟨u + 1, hsurj (u + 1) (by omega), ?_⟩
          unfold mergeMap
          rw [if_neg (by omega), if_pos ⟨by omega, by omega⟩]
          omega
      have hres := ih (st.1 - 1,
        st.2.map (mergeMap (st.2.getD (collapseOrient st.2 pc.1).1 0)
          (if (collapseOrient st.2 pc.1).2 = UINT32_MAX then UINT32_MAX
           else st.2.getD (collapseOrient st.2 pc.1).2 0)))
        (by simpa using hlen) (by omega) hok' hsurj' htl
      rw [if_pos hexec]
      exact ⟨hres.1, by omega, hres.2.2.1, hres.2.2.2.1, by omega⟩
    · -- the step is skipped: nothing changes
      have hnot : stepExecutes ct st.2 pc = false := by simpa using hexec
      rw [collapsePair_not_exec ct st pc hnot] at htl ⊢
      have hres := ih st hlen hle hok hsurj htl
      rw [if_neg hexec]
      exact ⟨hres.1, hres.2.1, hres.2.2.1, hres.2.2.2.1, by omega⟩

/-- C3 counterexample: descriptor `d3` declares the pair (1, 2) twice and
both hints are flagged executed with no connected terminals.  Both steps
execute (neither is skipped by the terminal/ground protection), so the
claimed surviving count is `3 - 2 = 1` and `collapse_nodes` indeed returns
count 1 — but the resulting `node_mapping` `[0, 1, 1]` maps nodes 1 and 2
to local index 1, which is NOT a surviving node (not `< 1`) and not the
ground sentinel: the mapping is not a function into the surviving set. -/
theorem collapse_nodes_survivor_counterexample :
    collapse_nodes d3 [true, true] 0 = (1, [0, 1, 1]) ∧
    execCount 0 (3, List.range 3) (d3.collapsible.zip [true, true]) = 2 ∧
    ¬ mappingOK 1 [0, 1, 1] := by
  refine ⟨rfl, by decide, fun h => ?_⟩
  have h2 := h 1 (by simp)
  revert h2
  decide

/-- C3 amended: for every descriptor, executed-flag vector and connected
terminal count, PROVIDED the collapse trace is well-formed (`traceWF`:
every executing hint names valid node indices and merges two currently
distinct, non-ground representatives — equivalently, no hint re-collapses
an already-merged or already-grounded pair), `collapse_nodes` returns a
`node_mapping` that maps every local node to exactly one surviving local
node (an index below the returned count) or the ground sentinel, with
every surviving index actually used, and the returned surviving count
equals `num_nodes` minus the number of collapses that actually executed
(flagged and not skipped by the terminal/ground protection). -/
theorem collapse_nodes_wf (descr : OsdiDescriptor) (collapsed : List Bool) (ct : Nat)
    (hn0 : descr.num_nodes ≤ UINT32_MAX)
    (hwf : traceWF ct descr.num_nodes (descr.num_nodes, List.range descr.num_nodes)
        (descr.collapsible.zip collapsed) = true) :
    (collapse_nodes descr collapsed ct).2.length = descr.num_nodes ∧
    mappingOK (collapse_nodes descr collapsed ct).1
      (collapse_nodes descr collapsed ct).2 ∧
    (∀ u, u < (collapse_nodes descr collapsed ct).1 →
      u ∈ (collapse_nodes descr collapsed ct).2) ∧
    (collapse_nodes descr collapsed ct).1 +
        execCount ct (descr.num_nodes, List.range descr.num_nodes)
          (descr.collapsible.zip collapsed) = descr.num_nodes := by
  have h := collapseLoop_wf ct descr.num_nodes hn0 (descr.collapsible.zip collapsed)
    (descr.num_nodes, List.range descr.num_nodes) (by simp) (le_refl _)
    (fun v hv => Or.inl (List.mem_range.mp hv)) (fun u hu => List.mem_range.mpr hu) hwf
  exact ⟨h.1, h.2.2.1, h.2.2.2.1, h.2.2.2.2⟩

/-- Witness for the amended C3 at the `d4` scenario (one executed collapse
of internal node 3 into terminal 2). -/
theorem collapse_nodes_wf_witness :
    d4.num_nodes ≤ UINT32_MAX ∧
    traceWF 3 d4.num_nodes (d4.num_nodes, List.range d4.num_nodes)
        (d4.collapsible.zip [true]) = true ∧
    ((collapse_nodes d4 [true] 3).2.length = d4.num_nodes ∧
     mappingOK (collapse_nodes d4 [true] 3).1 (collapse_nodes d4 [true] 3).2 ∧
     (∀ u, u < (collapse_nodes d4 [true] 3).1 → u ∈ (collapse_nodes d4 [true] 3).2) ∧
     (collapse_nodes d4 [true] 3).1 +
         execCount 3 (d4.num_nodes, List.range d4.num_nodes)
           (d4.collapsible.zip [true]) = d4.num_nodes) :=
  ⟨by decide, by decide, collapse_nodes_wf d4 [true] 3 (by decide) (by decide)⟩

/-- An instance either leaves the state counter and recorded-base list
unchanged (it was skipped on a `setup_instance` error) or appends the
current counter value as its recorded base and advances the counter by the
per-instance demand `S`. -/
theorem processInst_state_cases (descr : OsdiDescriptor) (S : Nat)
    (mk : Nat → Nat → Option Nat) (st : RunState) (i : InstData) (r : RunState)
    (h : processInst descr S mk st i = .ok r) :
    (r.states = st.states ∧ r.stateBases = st.stateBases) ∨
    (r.states = st.states + S ∧ r.stateBases = st.stateBases ++ [st.states]) := by
  unfold processInst at h
  by_cases hc : (handle_init_info i.inst_info).status ≠ OK
  · rw [if_pos hc] at h
    cases h
    exact Or.inl ⟨rfl, rfl⟩
  · rw [if_neg hc] at h
    cases hm : init_matrix mk (setupNodes descr i.collapsed i.terminals st.nodeCtr).1
        descr.jacobian_entries with
    | none => rw [hm] at h; cases h
    | some v =>
      rw [hm] at h
      cases h
      exact Or.inr ⟨rfl, rfl⟩

/-- Over a completed instance loop the recorded bases grow by an arithmetic
progression of stride `S` starting at the incoming counter value, and the
counter advances accordingly. -/
theorem runInsts_state_ranges (descr : OsdiDescriptor) (S : Nat)
    (mk : Nat → Nat → Option Nat) :
    ∀ (is : List InstData) (st r : RunState),
      runInsts descr S mk st is = .ok r →
      ∃ k, r.states = st.states + k * S ∧
        r.stateBases = st.stateBases ++ (List.range k).map (fun j => st.states + j * S) := by
  intro is
  induction is with
  | nil =>
    intro st r h
    simp only [runInsts] at h
    cases h
    exact ⟨0, by simp, by simp⟩
  | cons i is ih =>
    intro st r h
    simp only [runInsts] at h
    cases hp : processInst descr S mk st i with
    | error e => rw [hp] at h; cases h
    | ok st2 =>
      rw [hp] at h
      obtain ⟨k, hk1, hk2⟩ := ih st2 r h
      rcases processInst_state_cases descr S mk st i st2 hp with ⟨h1, h2⟩ | ⟨h1, h2⟩
      · exact ⟨k, by rw [hk1, h1], by rw [hk2, h2, h1]⟩
      · refine ⟨k + 1, by rw [hk1, h1]; ring, ?_⟩
        rw [hk2, h2, h1, List.append_assoc]
        congr 1
        rw [List.range_succ_eq_map, List.map_cons, List.map_map]
        have hfun : ((fun j => st.states + j * S) ∘ Nat.succ) =
            (fun j => st.states + S + j * S) := by
          funext j
          simp only [Function.comp_apply, Nat.succ_mul]
          ring
        rw [hfun]
        simp

/-- `processInst_state_cases` lifted to one model: a model contributes an
arithmetic progression of recorded bases. -/
theorem processModel_state_ranges (descr : OsdiDescriptor) (S : Nat)
    (mk : Nat → Nat → Option Nat) (st : RunState) (m : ModelData) (r : RunState)
    (h : processModel descr S mk st m = .ok r) :
    ∃ k, r.states = st.states + k * S ∧
      r.stateBases = st.stateBases ++ (List.range k).map (fun j => st.states + j * S) := by
  unfold processModel at h
  by_cases hc : (handle_init_info m.model_info).status ≠ OK
  · rw [if_pos hc] at h
    cases h
    exact ⟨0, by simp, by simp⟩
  · rw [if_neg hc] at h
    obtain ⟨k, hk1, hk2⟩ := runInsts_state_ranges descr S mk m.instances _ r h
    exact ⟨k, hk1, hk2⟩

/-- Over the whole model loop the recorded bases form the arithmetic
progression of stride `S` starting at the incoming counter value. -/
theorem runModels_state_ranges (descr : OsdiDescriptor) (S : Nat)
    (mk : Nat → Nat → Option Nat) :
    ∀ (ms : List ModelData) (st r : RunState),
      runModels descr S mk st ms = .ok r →
      ∃ k, r.states = st.states + k * S ∧
        r.stateBases = st.stateBases ++ (List.range k).map (fun j => st.states + j * S) := by
  intro ms
  induction ms with
  | nil =>
    intro st r h
    simp only [runModels] at h
    cases h
    exact ⟨0, by simp, by simp⟩
  | cons m ms ih =>
    intro st r h
    simp only [runModels] at h
    cases hp : processModel descr S mk st m with
    | error e => rw [hp] at h; cases h
    | ok st2 =>
      rw [hp] at h
      obtain ⟨k2, hk21, hk22⟩ := ih st2 r h
      obtain ⟨k1, hk11, hk12⟩ := processModel_state_ranges descr S mk st m st2 hp
      refine ⟨k1 + k2, by rw [hk21, hk11]; ring, ?_⟩
      rw [hk22, hk12, hk11, List.append_assoc]
      congr 1
      rw [List.range_add, List.map_append, List.map_map]
      congr 1
      have hfun : ((fun j => st.states + j * S) ∘ fun x => k1 + x) =
          (fun j => st.states + k1 * S + j * S) := by
        funext j
        simp only [Function.comp_apply]
        ring
      rw [hfun]

/-- Concatenating the per-base slot ranges of an arithmetic progression of
stride `S` yields one contiguous range. -/
theorem flatten_progression_ranges (s0 S : Nat) : ∀ k : Nat,
    (((List.range k).map (fun j => s0 + j * S)).map
        (fun b => List.range' b S)).flatten =
      List.range' s0 (k * S) := by
  intro k
  induction k with
  | zero => simp
  | succ n ih =>
    rw [List.range_succ, List.map_append, List.map_append, List.flatten_append, ih]
    simp only [List.map_cons, List.map_nil, List.flatten_cons, List.flatten_nil,
      List.append_nil]
    rw [List.range'_append_1 s0 (n * S) S]
    congr 1
    ring

/-- The per-base slot ranges of an arithmetic progression of stride `S` are
pairwise disjoint. -/
theorem pairwise_disjoint_progression_ranges (s0 S : Nat) (k : Nat) :
    List.Pairwise (fun l1 l2 => ∀ x ∈ l1, x ∉ l2)
      (((List.range k).map (fun j => s0 + j * S)).map
        (fun b => List.range' b S)) := by
  rw [List.map_map]
  refine List.Pairwise.map _ ?_ (List.pairwise_lt_range k)
  intro a b hab x hx hx2
  simp only [Function.comp_apply] at hx hx2
  rw [List.mem_range'_1] at hx hx2
  have h1 : (a + 1) * S ≤ b * S := Nat.mul_le_mul_right S (by omega)
  have h2 : (a + 1) * S = a * S + S := Nat.succ_mul a S
  omega

/-- C5: during setup each instance that completes its setup is assigned a
contiguous range of `stateSlotSize descr = declared_state_count +
2 × (number of descriptor nodes whose reactive-residual slot is
requested)` state-slot indices starting at its recorded base
(`gen_inst->GENstate`): whenever `OSDIsetup` runs to completion, the
recorded bases form the stride-`stateSlotSize` arithmetic progression
starting at the initial counter value, the final counter is the initial
one plus the total demand, the per-instance ranges taken in processing
order concatenate to exactly the contiguous range from the initial to the
final counter value, and the ranges of distinct instances are pairwise
disjoint. -/
theorem OSDIsetup_state_ranges (descr : OsdiDescriptor) (mk : Nat → Nat → Option Nat)
    (models : List ModelData) (s0 n0 : Nat) (r : RunState)
    (h : OSDIsetup descr mk models s0 n0 = .ok r) :
    r.stateBases = (List.range r.stateBases.length).map
      (fun j => s0 + j * stateSlotSize descr) ∧
    r.states = s0 + r.stateBases.length * stateSlotSize descr ∧
    (r.stateBases.map (fun b => List.range' b (stateSlotSize descr))).flatten =
      List.range' s0 (r.stateBases.length * stateSlotSize descr) ∧
    List.Pairwise (fun l1 l2 => ∀ x ∈ l1, x ∉ l2)
      (r.stateBases.map (fun b => List.range' b (stateSlotSize descr))) := by
  obtain ⟨k, hk1, hk2⟩ := runModels_state_ranges descr (stateSlotSize descr) mk models
    ⟨OK, s0, n0, [], []⟩ r h
  rw [List.nil_append] at hk2
  have hlen : r.stateBases.length = k := by
    rw [hk2, List.length_map, List.length_range]
  rw [hlen, hk2]
  exact ⟨rfl, hk1, flatten_progression_ranges s0 (stateSlotSize descr) k,
    pairwise_disjoint_progression_ranges s0 (stateSlotSize descr) k⟩

/-- Witness for C5: descriptor `d5` (2 declared states, one
reactive-residual node, so `stateSlotSize d5 = 4`) with one model of two
clean instances, starting the state counter at 5: the recorded bases are
`[5, 9]`, the final counter is 13, and `[5..9) ++ [9..13) = [5..13)`. -/
theorem OSDIsetup_state_ranges_witness :
    OSDIsetup d5 mkZero [modelTwoInsts] 5 40 = .ok ⟨OK, 13, 42, [31, 32], [5, 9]⟩ ∧
    (([5, 9] : List Nat) = (List.range ([5, 9] : List Nat).length).map
      (fun j => 5 + j * stateSlotSize d5) ∧
    (⟨OK, 13, 42, [31, 32], [5, 9]⟩ : RunState).states =
      5 + ([5, 9] : List Nat).length * stateSlotSize d5 ∧
    (([5, 9] : List Nat).map (fun b => List.range' b (stateSlotSize d5))).flatten =
      List.range' 5 (([5, 9] : List Nat).length * stateSlotSize d5) ∧
    List.Pairwise (fun l1 l2 => ∀ x ∈ l1, x ∉ l2)
      (([5, 9] : List Nat).map (fun b => List.range' b (stateSlotSize d5)))) :=
  ⟨rfl, OSDIsetup_state_ranges d5 mkZero [modelTwoInsts] 5 40
    ⟨OK, 13, 42, [31, 32], [5, 9]⟩ rfl⟩

end OsdiSpec
